import Mathlib

/-!
Verification development for the JMockDraft room state machine
(shallow embedding of src/unnamed/part_003, the server).

JavaScript numbers are modelled as `Int`, JS `Set` as `Finset`,
the `draftRooms` `Map` as an association list `List (String × RoomState)`,
and fallible handlers return `Except`/`Option`.  Fields that the client
may omit or mistype are modelled as `Option` fields of a raw payload
structure; the server-side validation then mirrors the `typeof` checks.
-/

deriving instance DecidableEq for Except

namespace JMockDraft

/-- JS `String.prototype.trim()`: strip leading and trailing
whitespace.  (The library `String.trim` is extensionally the same but
its auxiliary functions do not reduce in the kernel, so the model uses
an explicitly structural definition.) -/
def jsTrim (s : String) : String :=
  String.mk (((s.toList.dropWhile Char.isWhitespace).reverse.dropWhile
    Char.isWhitespace).reverse)

/-- JS `String.prototype.toUpperCase()` on the room-code alphabet. -/
def jsToUpper (s : String) : String :=
  String.mk (s.toList.map Char.toUpper)

/-- One stored pick record, exactly the seven fields built in
`make_pick`'s `pickToStore` object (part_003 lines 290-298). -/
structure Pick where
  playerId : Int
  playerName : String
  salary : Int
  position : String
  teamId : Int
  team_url : String
  city : String
deriving DecidableEq

/-- The stored client `playersPerPos` object: the `start_draft`
validation (part_003 lines 167-173) checks only the three keys `F`,
`D`, `G`, which therefore carry numbers, but any extra entries the
client attached are stored verbatim and reach `Object.values` at line
72.  Extra values are modelled as numbers; a non-numeric extra value
(whose JS addition would leave the numbers altogether) is outside the
model. -/
structure PlayersPerPos where
  F : Int
  D : Int
  G : Int
  extra : List (String × Int)
deriving DecidableEq

/-- The configured-position lookup of `make_pick` (part_003 lines
269-272): the combined test
`['F','D','G'].includes(position) && playersPerPos[position] !== undefined`
followed by the access `playersPerPos[position]`.  After validation the
three keys hold numbers, and an extra key never qualifies because the
`includes` test fails first, so the lookup is `some` exactly on `F`,
`D`, `G` and yields that key's count. -/
def PlayersPerPos.get (p : PlayersPerPos) (pos : String) : Option Int :=
  if pos = "F" then some p.F
  else if pos = "D" then some p.D
  else if pos = "G" then some p.G
  else none

/-- `Object.values(playersPerPos).reduce((sum, count) => sum + (count || 0), 0)`
(part_003 line 72): the sum runs over every stored entry, the validated
`F`, `D`, `G` and the unvalidated extra entries alike. -/
def totalSlotsPerTable (p : PlayersPerPos) : Int :=
  p.F + p.D + p.G + (p.extra.map (fun kv => kv.2)).sum

/-- Validated room settings (part_003 lines 152-177, stored at line 190). -/
structure DraftSettings where
  numTables : Int
  playersPerPos : PlayersPerPos
  isSerpentineOrder : Bool
  maxSalary : Int
  tableNames : List (Int × String)
deriving DecidableEq

/-- Internal state of one draft room (part_003 lines 189-198).
The top-level `isSerpentineOrder` copy of line 195 is kept for fidelity
even though `calculateNextTurn` only reads the copy inside `settings`. -/
structure RoomState where
  settings : DraftSettings
  picks : List Pick
  selectedPlayerIds : Finset Int
  nextTableToPick : Int
  currentPickDirection : Int
  isSerpentineOrder : Bool
  roomCode : String
  participants : Finset String
deriving DecidableEq

/-- Total number of slots of a room: `numTables * totalSlotsPerTable`
(part_003 line 73). -/
def totalSlots (s : RoomState) : Int :=
  s.settings.numTables * totalSlotsPerTable s.settings.playersPerPos

/-- `calculateNextTurn` (part_003 lines 52-95).  The guard
`!currentState?.settings?.numTables || numTables <= 0` is `numTables ≤ 0`
here (`0` is falsy); `settings`/`playersPerPos` cannot be `null` in the
model.  `currentPicks[currentPicks.length - 1]` after the
`length === 0` test is the `getLast?` match.  JS `%` is truncated
division remainder, i.e. `Int.tmod`. -/
def calculateNextTurn (currentState : RoomState) : Int × Int :=
  if currentState.settings.numTables ≤ 0 then (0, 1)
  else
    let numTables := currentState.settings.numTables
    let currentPickDirection := currentState.currentPickDirection
    match currentState.picks.getLast? with
    | none => (0, 1)
    | some lastPick =>
      let lastActiveTableIndex := lastPick.teamId
      let slots := numTables * totalSlotsPerTable currentState.settings.playersPerPos
      if 0 < slots ∧ slots ≤ (currentState.picks.length : Int) then
        (-1, currentPickDirection)
      else
        let isEndOfForwardRound :=
          currentPickDirection = 1 ∧ lastActiveTableIndex = numTables - 1
        let isEndOfBackwardRound :=
          currentPickDirection = -1 ∧ lastActiveTableIndex = 0
        if currentState.settings.isSerpentineOrder ∧
            (isEndOfForwardRound ∨ isEndOfBackwardRound) then
          (lastActiveTableIndex, currentPickDirection * (-1))
        else
          ((lastActiveTableIndex + currentPickDirection + numTables).tmod numTables,
            currentPickDirection)

/-- Raw client pick payload (`pickData`): the six `typeof`-checked fields
may be missing or mistyped (`none`), `city` is optional (line 297), and
`extra` stands for any further properties the client attached. -/
structure RawPickData where
  playerId : Option Int
  playerName : Option String
  salary : Option Int
  position : Option String
  teamId : Option Int
  team_url : Option String
  city : Option String
  extra : List (String × String)
deriving DecidableEq

/-- The rejection reasons of `make_pick` (part_003 lines 252-280),
one constructor per distinct message. -/
inductive PickError where
  | roomNotFound
  | invalidDataFormat
  | incompleteData
  | notYourTurn
  | playerAlreadySelected
  | invalidPosition
  | positionSlotsFilled
deriving DecidableEq

/-- The `make_pick` handler core (part_003 lines 247-312): validation in
source order, then `pickToStore` construction, push/add, and the
`calculateNextTurn` refresh.  `room?` is `draftRooms.get(roomCode)` and
`pickData? = none` models a non-object `pickData`. -/
def makePick (room? : Option RoomState) (pickData? : Option RawPickData) :
    Except PickError RoomState :=
  match room? with
  | none => .error .roomNotFound
  | some roomState =>
    match pickData? with
    | none => .error .invalidDataFormat
    | some pd =>
      match pd.playerId, pd.teamId, pd.playerName, pd.salary, pd.position, pd.team_url with
      | some playerId, some teamId, some playerName, some salary,
          some position, some team_url =>
        if teamId ≠ roomState.nextTableToPick then .error .notYourTurn
        else if playerId ∈ roomState.selectedPlayerIds then .error .playerAlreadySelected
        else
          match roomState.settings.playersPerPos.get position with
          | none => .error .invalidPosition
          | some requiredCountForPos =>
            let currentCountForPos :=
              (roomState.picks.filter
                (fun p => p.teamId == teamId && p.position == position)).length
            if requiredCountForPos ≤ (currentCountForPos : Int) then
              .error .positionSlotsFilled
            else
              let pickToStore : Pick :=
                { playerId := playerId, playerName := playerName, salary := salary,
                  position := position, teamId := teamId, team_url := team_url,
                  city := pd.city.getD "" }
              let withPick : RoomState :=
                { roomState with
                  picks := roomState.picks ++ [pickToStore],
                  selectedPlayerIds := insert playerId roomState.selectedPlayerIds }
              let next := calculateNextTurn withPick
              .ok { withPick with nextTableToPick := next.1, currentPickDirection := next.2 }
      | _, _, _, _, _, _ => .error .incompleteData

/-- The rejection reasons of `undo_pick` (part_003 lines 318-325). -/
inductive UndoError where
  | roomNotFound
  | noPicksToUndo
deriving DecidableEq

/-- The `undo_pick` handler core (part_003 lines 314-348): pop the last
pick, delete its id from the selected set, recompute the turn.  The
`length === 0` guard followed by `pop()` is the `getLast?` match; the
`lastPick` undefined branch of line 343 is unreachable here. -/
def undoPick (room? : Option RoomState) : Except UndoError RoomState :=
  match room? with
  | none => .error .roomNotFound
  | some roomState =>
    match roomState.picks.getLast? with
    | none => .error .noPicksToUndo
    | some lastPick =>
      let afterPop : RoomState :=
        { roomState with
          picks := roomState.picks.dropLast,
          selectedPlayerIds := roomState.selectedPlayerIds.erase lastPick.playerId }
      let next := calculateNextTurn afterPop
      .ok { afterPop with nextTableToPick := next.1, currentPickDirection := next.2 }

/-- The rejection reasons of `update_table_name` (part_003 lines 355-362). -/
inductive RenameError where
  | roomNotFound
  | invalidData
deriving DecidableEq

/-- JS object assignment `tableNames[teamId] = name` on an association
list: replace the binding if present, append it otherwise. -/
def setTableName (names : List (Int × String)) (teamId : Int) (name : String) :
    List (Int × String) :=
  if names.any (fun kv => kv.1 == teamId) then
    names.map (fun kv => if kv.1 == teamId then (kv.1, name) else kv)
  else names ++ [(teamId, name)]

/-- The `update_table_name` handler core (part_003 lines 350-372):
bounds-check `teamId`, require a string `newName` (`none` models a
non-string), default a blank trimmed name to `Team N`. -/
def updateTableName (room? : Option RoomState) (teamId : Int)
    (newName : Option String) : Except RenameError RoomState :=
  match room? with
  | none => .error .roomNotFound
  | some roomState =>
    if teamId < 0 ∨ roomState.settings.numTables ≤ teamId then .error .invalidData
    else
      match newName with
      | none => .error .invalidData
      | some nm =>
        let trimmed := nm.trim
        let finalName := if trimmed = "" then "Team " ++ toString (teamId + 1) else trimmed
        .ok { roomState with
          settings := { roomState.settings with
            tableNames := setTableName roomState.settings.tableNames teamId finalName } }

/-- Raw `playersPerPos` client object: each position key may be missing
or mistyped. -/
structure RawPlayersPerPos where
  F : Option Int
  D : Option Int
  G : Option Int
  extra : List (String × Int)
deriving DecidableEq

/-- Raw client settings for `start_draft`; `none` fields model missing
or mistyped values rejected by the `typeof` checks. -/
structure RawSettings where
  numTables : Option Int
  playersPerPos : Option RawPlayersPerPos
  maxSalary : Option Int
  tableNames : Option (List (Int × String))
  isSerpentineOrder : Bool
deriving DecidableEq

/-- The `start_draft` settings validation (part_003 lines 152-177) in
source order; `none` is a rejected request, `some` the validated
settings stored in the new room. -/
def validateStartSettings (settings? : Option RawSettings) : Option DraftSettings :=
  match settings? with
  | none => none
  | some s =>
    match s.numTables with
    | none => none
    | some numTables =>
      if numTables < 1 then none
      else
        match s.playersPerPos with
        | none => none
        | some rawPos =>
          match s.maxSalary with
          | none => none
          | some maxSalary =>
            if maxSalary < 0 then none
            else
              match s.tableNames with
              | none => none
              | some tableNames =>
                match rawPos.F, rawPos.D, rawPos.G with
                | some f, some d, some g =>
                  if f < 0 ∨ d < 0 ∨ g < 0 then none
                  else if f + d + g = 0 then none
                  else some
                    { numTables := numTables,
                      playersPerPos := ⟨f, d, g, rawPos.extra⟩,
                      isSerpentineOrder := s.isSerpentineOrder,
                      maxSalary := maxSalary,
                      tableNames := tableNames }
                | _, _, _ => none

/-- The fresh room object of `start_draft` (part_003 lines 189-198). -/
def createRoom (settings : DraftSettings) (roomCode : String) (creator : String) :
    RoomState :=
  { settings := settings,
    picks := [],
    selectedPlayerIds := ∅,
    nextTableToPick := 0,
    currentPickDirection := 1,
    isSerpentineOrder := settings.isSerpentineOrder,
    roomCode := roomCode,
    participants := {creator} }

/-! Server level: the `draftRooms` map, room codes, emissions, handlers. -/

/-- Destination of a Socket.IO emission: `socket.emit` goes to the
requester only, `io.to(roomCode).emit` to every room participant. -/
inductive EmitTarget where
  | requester
  | room
deriving DecidableEq

/-- One emission, as the pair of destination and event name. -/
structure Emit where
  target : EmitTarget
  event : String
deriving DecidableEq

/-- `draftRooms.get(code)` on the association-list model of the map. -/
def lookupRoom : List (String × RoomState) → String → Option RoomState
  | [], _ => none
  | kv :: rest, code => if kv.1 = code then some kv.2 else lookupRoom rest code

/-- In-place mutation of the room object stored under `code` (the JS
handlers mutate the object held by the map). -/
def setRoom : List (String × RoomState) → String → RoomState →
    List (String × RoomState)
  | [], _, _ => []
  | kv :: rest, code, st =>
    (if kv.1 = code then (kv.1, st) else kv) :: setRoom rest code st

/-- `draftRooms.delete(code)` (part_003 line 121). -/
def removeRoom (rooms : List (String × RoomState)) (code : String) :
    List (String × RoomState) :=
  rooms.filter (fun kv => kv.1 != code)

/-- The fixed unambiguous room-code alphabet (part_003 line 36). -/
def roomCodeCharacters : String := "ABCDEFGHIJKLMNPQRSTUVWXYZ123456789"

/-- One iteration of the sampling loop body (part_003 lines 39-42):
build a string of `length` characters, character `i` being
`characters.charAt(floor(random * 34))`; the random draw for index `i`
is modelled by `seed i % 34`. -/
def sampleRoomCode (seed : List Nat) (length : Nat := 5) : String :=
  String.mk ((List.range length).map
    (fun i => roomCodeCharacters.toList.getD ((seed.getD i 0) % roomCodeCharacters.length) 'A'))

/-- The `do … while (draftRooms.has(result))` loop of `generateRoomCode`
(part_003 lines 35-45), with the stream of random draws made explicit:
each list element seeds one candidate; `none` means the supply of
modelled draws ran out (the JS loop would keep sampling). -/
def generateRoomCode (liveCodes : List String) : List (List Nat) → Option String
  | [] => none
  | seed :: rest =>
    let result := sampleRoomCode seed
    if liveCodes.contains result then generateRoomCode liveCodes rest
    else some result

/-- The `start_draft` handler (part_003 lines 149-207): validate the
settings, generate a fresh code, store the new room.  Returns the new
map and the code on success, `none` on a validation failure (which
leaves the map untouched) or exhausted random supply. -/
def handleStartDraft (rooms : List (String × RoomState)) (settings? : Option RawSettings)
    (seeds : List (List Nat)) (creator : String) :
    Option (List (String × RoomState) × String) :=
  match validateStartSettings settings? with
  | none => none
  | some settings =>
    match generateRoomCode (rooms.map (fun kv => kv.1)) seeds with
    | none => none
    | some roomCode =>
      some ((roomCode, createRoom settings roomCode creator) :: rooms, roomCode)

/-- The `make_pick` handler at map level (part_003 lines 247-312):
on rejection emit `pick_error` to the requester only, on success store
the mutated room and broadcast `draft_state_update` to the room. -/
def handleMakePick (rooms : List (String × RoomState)) (roomCode : String)
    (pickData? : Option RawPickData) : List (String × RoomState) × List Emit :=
  match makePick (lookupRoom rooms roomCode) pickData? with
  | .error _ => (rooms, [⟨.requester, "pick_error"⟩])
  | .ok st => (setRoom rooms roomCode st, [⟨.room, "draft_state_update"⟩])

/-- The `undo_pick` handler at map level (part_003 lines 314-348). -/
def handleUndoPick (rooms : List (String × RoomState)) (roomCode : String) :
    List (String × RoomState) × List Emit :=
  match undoPick (lookupRoom rooms roomCode) with
  | .error _ => (rooms, [⟨.requester, "error"⟩])
  | .ok st => (setRoom rooms roomCode st, [⟨.room, "draft_state_update"⟩])

/-- The `update_table_name` handler at map level (part_003 lines 350-372). -/
def handleUpdateTableName (rooms : List (String × RoomState)) (roomCode : String)
    (teamId : Int) (newName : Option String) :
    List (String × RoomState) × List Emit :=
  match updateTableName (lookupRoom rooms roomCode) teamId newName with
  | .error _ => (rooms, [⟨.requester, "error"⟩])
  | .ok st => (setRoom rooms roomCode st, [⟨.room, "draft_state_update"⟩])

/-- The `join_draft` handler (part_003 lines 209-243): uppercase the
trimmed code, add the joiner to the participant set, send the full
state to the joiner and a participant update to the others. -/
def handleJoinDraft (rooms : List (String × RoomState)) (roomCode : String)
    (socketId : String) : List (String × RoomState) × List Emit :=
  let upperRoomCode := jsToUpper (jsTrim roomCode)
  if upperRoomCode = "" then (rooms, [⟨.requester, "join_error"⟩])
  else
    match lookupRoom rooms upperRoomCode with
    | some roomState =>
      let updated : RoomState :=
        { roomState with participants := insert socketId roomState.participants }
      (setRoom rooms upperRoomCode updated,
        [⟨.requester, "draft_state_update"⟩, ⟨.room, "participant_update"⟩])
    | none => (rooms, [⟨.requester, "join_error"⟩])

/-- `ROOM_CLEANUP_DELAY_SHORT` (part_003 line 16), in milliseconds. -/
def ROOM_CLEANUP_DELAY_SHORT : Nat := 60 * 1000

/-- `ROOM_CLEANUP_DELAY_LONG` (part_003 line 17), in milliseconds. -/
def ROOM_CLEANUP_DELAY_LONG : Nat := 24 * 60 * 60 * 1000

/-- The `setTimeout` callback of `scheduleEmptyRoomRemoval` at fire time
(part_003 lines 117-126): re-fetch the room and delete it only if it
still exists and is still empty. -/
def fireScheduledRoomRemoval (rooms : List (String × RoomState)) (roomCode : String) :
    List (String × RoomState) :=
  match lookupRoom rooms roomCode with
  | some room => if room.participants = ∅ then removeRoom rooms roomCode else rooms
  | none => rooms

/-- `handleLeaveOrDisconnect` (part_003 lines 377-404).
`handlerSocketId` is the `socket.id` captured by the connection closure;
`leavingSocketId` is the argument of the function.  The result pairs the
updated map with the scheduled cleanup, `some (code, delay)` when the
room became empty (the delay chosen at line 392). -/
def handleLeaveOrDisconnect (handlerSocketId leavingSocketId roomCode : String)
    (rooms : List (String × RoomState)) :
    List (String × RoomState) × Option (String × Nat) :=
  match lookupRoom rooms roomCode with
  | none => (rooms, none)
  | some roomState =>
    if leavingSocketId ∉ roomState.participants then (rooms, none)
    else
      let updated : RoomState :=
        { roomState with participants := roomState.participants.erase leavingSocketId }
      let rooms' := setRoom rooms roomCode updated
      if updated.participants = ∅ then
        let delay :=
          if leavingSocketId = handlerSocketId then ROOM_CLEANUP_DELAY_LONG
          else ROOM_CLEANUP_DELAY_SHORT
        (rooms', some (roomCode, delay))
      else (rooms', none)

/-- The per-room work of the `disconnect` handler (part_003 lines
406-412): it calls `handleLeaveOrDisconnect(socket.id, roomCode)`, so
both id arguments are the disconnecting socket's own id. -/
def onDisconnectRoom (socketId roomCode : String)
    (rooms : List (String × RoomState)) :
    List (String × RoomState) × Option (String × Nat) :=
  handleLeaveOrDisconnect socketId socketId roomCode rooms

/-- The `leave_draft` handler (part_003 lines 414-436): after the
trim/uppercase and membership test it also calls
`handleLeaveOrDisconnect(socket.id, upperRoomCode)`. -/
def onLeaveDraft (socketId roomCode : String)
    (rooms : List (String × RoomState)) :
    List (String × RoomState) × Option (String × Nat) :=
  let upperRoomCode := jsToUpper (jsTrim roomCode)
  if upperRoomCode = "" then (rooms, none)
  else
    match lookupRoom rooms upperRoomCode with
    | some roomState =>
      if socketId ∈ roomState.participants then
        handleLeaveOrDisconnect socketId socketId upperRoomCode rooms
      else (rooms, none)
    | none => (rooms, none)

/-! Reachable room states through the public operations. -/

/-- Room states reachable through the public operations: creation with
validated settings, accepted picks, accepted undos, renames. -/
inductive ReachableRoom : RoomState → Prop
  | start (settings? : Option RawSettings) (settings : DraftSettings)
      (roomCode creator : String)
      (hv : validateStartSettings settings? = some settings) :
      ReachableRoom (createRoom settings roomCode creator)
  | pick {s s' : RoomState} (pd : RawPickData)
      (hr : ReachableRoom s) (hp : makePick (some s) (some pd) = .ok s') :
      ReachableRoom s'
  | undo {s s' : RoomState}
      (hr : ReachableRoom s) (hu : undoPick (some s) = .ok s') :
      ReachableRoom s'
  | rename {s s' : RoomState} (teamId : Int) (newName : Option String)
      (hr : ReachableRoom s)
      (hn : updateTableName (some s) teamId newName = .ok s') :
      ReachableRoom s'

/-- Room maps reachable through sequences of room creations. -/
inductive CreationsReachable : List (String × RoomState) → Prop
  | nil : CreationsReachable []
  | step {rooms rooms' : List (String × RoomState)} {code : String}
      (settings? : Option RawSettings) (seeds : List (List Nat)) (creator : String)
      (hr : CreationsReachable rooms)
      (hs : handleStartDraft rooms settings? seeds creator = some (rooms', code)) :
      CreationsReachable rooms'

/-! Specification-side rendering of the pick validation order, for the
refinement comparison with `makePick`. -/

/-- The reported rejection of `make_pick`, as an option. -/
def makePickRejection (room? : Option RoomState) (pickData? : Option RawPickData) :
    Option PickError :=
  match makePick room? pickData? with
  | .error e => some e
  | .ok _ => none

/-- Modelled from the spec's ordered check list: check (1), the room
exists. -/
def specCheckRoom (room? : Option RoomState) : Option PickError :=
  if room?.isNone then some .roomNotFound else none

/-- Check (2a): the payload is an object at all. -/
def specCheckObject (pickData? : Option RawPickData) : Option PickError :=
  if pickData?.isNone then some .invalidDataFormat else none

/-- Check (2b): all six required fields are present and typed. -/
def specCheckComplete (pickData? : Option RawPickData) : Option PickError :=
  match pickData? with
  | some pd =>
    if pd.playerId.isNone ∨ pd.teamId.isNone ∨ pd.playerName.isNone ∨
        pd.salary.isNone ∨ pd.position.isNone ∨ pd.team_url.isNone then
      some .incompleteData
    else none
  | none => none

/-- Check (3): it is the requesting team's turn. -/
def specCheckTurn (room? : Option RoomState) (pickData? : Option RawPickData) :
    Option PickError :=
  match room?, pickData?.bind RawPickData.teamId with
  | some r, some tid =>
    if tid ≠ r.nextTableToPick then some .notYourTurn else none
  | _, _ => none

/-- Check (4): the player has not been selected already. -/
def specCheckDuplicate (room? : Option RoomState) (pickData? : Option RawPickData) :
    Option PickError :=
  match room?, pickData?.bind RawPickData.playerId with
  | some r, some pid =>
    if pid ∈ r.selectedPlayerIds then some .playerAlreadySelected else none
  | _, _ => none

/-- Check (5): the position is one of the configured position labels. -/
def specCheckPosition (room? : Option RoomState) (pickData? : Option RawPickData) :
    Option PickError :=
  match room?, pickData?.bind RawPickData.position with
  | some r, some pos =>
    if (r.settings.playersPerPos.get pos).isNone then some .invalidPosition else none
  | _, _ => none

/-- Check (6): the count of existing picks for `(teamId, position)` is
strictly below the configured requirement. -/
def specCheckCapacity (room? : Option RoomState) (pickData? : Option RawPickData) :
    Option PickError :=
  match room?, pickData? with
  | some r, some pd =>
    match pd.teamId, pd.position with
    | some tid, some pos =>
      match r.settings.playersPerPos.get pos with
      | some req =>
        if req ≤ (((r.picks.filter
            (fun p => p.teamId == tid && p.position == pos)).length : Int)) then
          some .positionSlotsFilled
        else none
      | none => none
    | _, _ => none
  | _, _ => none

/-- Modelled from the spec's ordered check list (one entry per check,
each stated independently of the others; `none` is a pass).  The spec's
check (2), payload structurally complete and correctly typed, appears as
the two entries `invalidDataFormat` (payload not an object) and
`incompleteData` (required field missing or mistyped), matching the two
distinct rejection messages of the source. -/
def specPickChecks (room? : Option RoomState) (pickData? : Option RawPickData) :
    List (Option PickError) :=
  [specCheckRoom room?, specCheckObject pickData?, specCheckComplete pickData?,
    specCheckTurn room? pickData?, specCheckDuplicate room? pickData?,
    specCheckPosition room? pickData?, specCheckCapacity room? pickData?]

/-- First failing check of the ordered list, i.e. the rejection the spec
predicts. -/
def firstFailingPickCheck (room? : Option RoomState) (pickData? : Option RawPickData) :
    Option PickError :=
  (specPickChecks room? pickData?).findSome? id

/-! Invariants of reachable rooms. -/

/-- Facts about settings guaranteed by the `start_draft` validation and
untouched by every later operation.  The validation says nothing about
extra `playersPerPos` entries, so nothing here bounds
`totalSlotsPerTable`, which may be zero or negative on a reachable
room. -/
def ValidRoomSettings (st : DraftSettings) : Prop :=
  1 ≤ st.numTables ∧ 0 ≤ st.playersPerPos.F ∧ 0 ≤ st.playersPerPos.D ∧
    0 ≤ st.playersPerPos.G ∧
    1 ≤ st.playersPerPos.F + st.playersPerPos.D + st.playersPerPos.G

/-- The inductive invariant of reachable rooms that drives the turn
pointer analysis: validated settings, direction in `{+1, -1}`, the turn
pointer equal to `-1` exactly under the code's completion condition
`0 < totalSlots ∧ totalSlots ≤ picks.length` (and a valid team index
otherwise), every pick stored at an index below a positive `totalSlots`
carrying a team index in range, and — when `totalSlots` is not positive,
which extra `playersPerPos` entries make reachable — every stored pick
in range. -/
def FullInv (s : RoomState) : Prop :=
  ValidRoomSettings s.settings ∧
  (s.currentPickDirection = 1 ∨ s.currentPickDirection = -1) ∧
  ((s.nextTableToPick = -1 ∧ 0 < totalSlots s ∧
      totalSlots s ≤ (s.picks.length : Int)) ∨
    (0 ≤ s.nextTableToPick ∧ s.nextTableToPick < s.settings.numTables ∧
      ¬(0 < totalSlots s ∧ totalSlots s ≤ (s.picks.length : Int)))) ∧
  (∀ p ∈ s.picks.take (totalSlots s).toNat,
    0 ≤ p.teamId ∧ p.teamId < s.settings.numTables) ∧
  (totalSlots s ≤ 0 → ∀ p ∈ s.picks,
    0 ≤ p.teamId ∧ p.teamId < s.settings.numTables)

/-- The inductive invariant behind the selected-player index: the set is
exactly the set of stored player ids, and those ids are pairwise
distinct. -/
def SelectedInv (s : RoomState) : Prop :=
  s.selectedPlayerIds = (s.picks.map Pick.playerId).toFinset ∧
    (s.picks.map Pick.playerId).Nodup

/-! Concrete fixtures used in counterexamples, witnesses and scenario
checks. -/

/-- Settings of spec scenario B: 2 teams, positions `{F:2}`, serpentine. -/
def settingsB : DraftSettings :=
  { numTables := 2, playersPerPos := ⟨2, 0, 0, []⟩, isSerpentineOrder := true,
    maxSalary := 1000, tableNames := [] }

/-- Scenario B room as created. -/
def roomB : RoomState := createRoom settingsB "ROOMB" "s1"

/-- A well-formed pick payload for player `pid` by team `tid` at `F`. -/
def pdF (pid tid : Int) : RawPickData :=
  { playerId := some pid, playerName := some "P", salary := some 10,
    position := some "F", teamId := some tid, team_url := some "u",
    city := none, extra := [] }

/-- Scenario B state after the first accepted pick (team 0). -/
def sB1 : RoomState := ((makePick (some roomB) (some (pdF 101 0))).toOption).getD roomB

/-- Scenario B state after the second accepted pick (team 1). -/
def sB2 : RoomState := ((makePick (some sB1) (some (pdF 102 1))).toOption).getD roomB

/-- Scenario B state after the third accepted pick (team 1 again). -/
def sB3 : RoomState := ((makePick (some sB2) (some (pdF 103 1))).toOption).getD roomB

/-- Scenario B state after the fourth accepted pick (team 0). -/
def sB4 : RoomState := ((makePick (some sB3) (some (pdF 104 0))).toOption).getD roomB

/-- Scenario B state after undoing the second pick. -/
def sB2u : RoomState := ((undoPick (some sB2)).toOption).getD roomB

/-- Minimal raw settings: 1 team, positions `{F:1, D:0, G:0}`,
non-serpentine. -/
def rawSettingsA : RawSettings :=
  { numTables := some 1, playersPerPos := some ⟨some 1, some 0, some 0, []⟩,
    maxSalary := some 0, tableNames := some [], isSerpentineOrder := false }

/-- The validated form of `rawSettingsA`. -/
def settingsA : DraftSettings :=
  { numTables := 1, playersPerPos := ⟨1, 0, 0, []⟩, isSerpentineOrder := false,
    maxSalary := 0, tableNames := [] }

/-- Room with settings `settingsA`. -/
def roomA : RoomState := createRoom settingsA "ROOMA" "s1"

/-- State of room A after its single legitimate pick (draft complete). -/
def sA1 : RoomState := ((makePick (some roomA) (some (pdF 201 0))).toOption).getD roomA

/-- State of room A after a further pick submitted with `teamId = -1`,
which the validator accepts once `nextTableToPick` is `-1`. -/
def sA2 : RoomState := ((makePick (some sA1) (some (pdF 202 (-1)))).toOption).getD roomA

/-- Raw client settings whose validation yields `settingsB`. -/
def rawSettingsB : RawSettings :=
  { numTables := some 2, playersPerPos := some ⟨some 2, some 0, some 0, []⟩,
    maxSalary := some 1000, tableNames := some [], isSerpentineOrder := true }

/-- The stored pick record of scenario B's second pick. -/
def pickB2 : Pick :=
  { playerId := 102, playerName := "P", salary := 10, position := "F",
    teamId := 1, team_url := "u", city := "" }

/-- The mid-pick state on which `calculateNextTurn` runs while accepting
scenario B's second pick: both picks pushed, direction still `+1`. -/
def sBmid : RoomState := { sB1 with picks := sB1.picks ++ [pickB2] }

/-- Raw client settings that pass validation while smuggling an extra
`playersPerPos` entry `X: -5` past the `F`/`D`/`G`-only checks. -/
def rawSettingsX : RawSettings :=
  { numTables := some 1,
    playersPerPos := some ⟨some 1, some 0, some 0, [("X", -5)]⟩,
    maxSalary := some 0, tableNames := some [], isSerpentineOrder := false }

/-- The validated form of `rawSettingsX`: the extra entry is stored
verbatim, so the code-side slot sum is `1 + 0 + 0 + (-5) = -4`. -/
def settingsX : DraftSettings :=
  { numTables := 1, playersPerPos := ⟨1, 0, 0, [("X", -5)]⟩,
    isSerpentineOrder := false, maxSalary := 0, tableNames := [] }

/-- Room with settings `settingsX`. -/
def roomX : RoomState := createRoom settingsX "ROOMX" "s1"

/-- Room X after one accepted pick: `totalSlots` is `-4`, so the
completion branch (`totalSlots > 0 && …`) can never fire and
`nextTableToPick` stays `0`. -/
def sX1 : RoomState := ((makePick (some roomX) (some (pdF 301 0))).toOption).getD roomX

/-! Helper lemmas shared by the invariant proofs. -/

/-- Successful-pick shape: an accepted pick appends exactly one record
whose team is the stored turn pointer and whose player was not yet
selected, inserts that player, preserves the settings, and refreshes
the turn pointer from `calculateNextTurn` on the grown state. -/
theorem makePick_ok_shape {s s' : RoomState} {pd : RawPickData}
    (h : makePick (some s) (some pd) = .ok s') :
    ∃ (pick : Pick),
      pick.playerId ∉ s.selectedPlayerIds ∧
      pick.teamId = s.nextTableToPick ∧
      s'.picks = s.picks ++ [pick] ∧
      s'.selectedPlayerIds = insert pick.playerId s.selectedPlayerIds ∧
      s'.settings = s.settings ∧
      s'.nextTableToPick =
        (calculateNextTurn
          { s with
            picks := s.picks ++ [pick],
            selectedPlayerIds := insert pick.playerId s.selectedPlayerIds }).1 ∧
      s'.currentPickDirection =
        (calculateNextTurn
          { s with
            picks := s.picks ++ [pick],
            selectedPlayerIds := insert pick.playerId s.selectedPlayerIds }).2 := by
  simp only [makePick] at h
  split at h
  · split at h
    case isTrue => exact absurd h (by simp)
    case isFalse hturn =>
      split at h
      case isTrue => exact absurd h (by simp)
      case isFalse hmem =>
        split at h
        next => exact absurd h (by simp)
        next req hreq =>
          split at h
          case isTrue => exact absurd h (by simp)
          case isFalse hcap =>
            injection h with h'
            subst h'
            exact ⟨_, hmem, not_not.mp hturn, rfl, rfl, rfl, rfl, rfl⟩
  · exact absurd h (by simp)

/-- Successful-undo shape: the last pick is popped, its player id
removed from the selected set, the settings preserved, and the turn
pointer refreshed from `calculateNextTurn` on the shortened state. -/
theorem undoPick_ok_shape {s s' : RoomState}
    (h : undoPick (some s) = .ok s') :
    ∃ (lastPick : Pick),
      s.picks.getLast? = some lastPick ∧
      s'.picks = s.picks.dropLast ∧
      s'.selectedPlayerIds = s.selectedPlayerIds.erase lastPick.playerId ∧
      s'.settings = s.settings ∧
      s'.nextTableToPick =
        (calculateNextTurn
          { s with
            picks := s.picks.dropLast,
            selectedPlayerIds := s.selectedPlayerIds.erase lastPick.playerId }).1 ∧
      s'.currentPickDirection =
        (calculateNextTurn
          { s with
            picks := s.picks.dropLast,
            selectedPlayerIds := s.selectedPlayerIds.erase lastPick.playerId }).2 := by
  simp only [undoPick] at h
  split at h
  next => exact absurd h (by simp)
  next lastPick hlast =>
    injection h with h'
    subst h'
    exact ⟨lastPick, hlast, rfl, rfl, rfl, rfl, rfl⟩

/-- Successful-rename shape: only the team display names change. -/
theorem updateTableName_ok_shape {s s' : RoomState} {teamId : Int}
    {newName : Option String}
    (h : updateTableName (some s) teamId newName = .ok s') :
    s'.picks = s.picks ∧ s'.selectedPlayerIds = s.selectedPlayerIds ∧
    s'.nextTableToPick = s.nextTableToPick ∧
    s'.currentPickDirection = s.currentPickDirection ∧
    s'.settings.numTables = s.settings.numTables ∧
    s'.settings.playersPerPos = s.settings.playersPerPos ∧
    s'.settings.isSerpentineOrder = s.settings.isSerpentineOrder := by
  simp only [updateTableName] at h
  split at h
  · exact absurd h (by simp)
  · split at h
    · exact absurd h (by simp)
    · injection h with h'
      subst h'
      exact ⟨rfl, rfl, rfl, rfl, rfl, rfl, rfl⟩

/-- `makePick` never reads any property of the payload beyond the seven
it stores, so replacing the extra properties leaves its result
unchanged. -/
theorem makePick_extra_irrelevant (room : RoomState) (pd : RawPickData)
    (extra' : List (String × String)) :
    makePick (some room) (some { pd with extra := extra' }) =
      makePick (some room) (some pd) := rfl

/-! Claim theorems. -/

/-- C1: the claim that one `undo` restores `picks`, `selectedPlayerIds`
and the turn pointer `{nextTeam, direction}` exactly fails on the code.
In the serpentine scenario-B room (2 teams, positions `{F:2}`), after
accepted picks by teams 0 and 1 the stored pointer is
`{nextTeam 1, direction 1}` before the second pick and
`{nextTeam 1, direction -1}` after it; undoing the second pick
recomputes the turn from the shortened history but with the
already-flipped direction `-1`, yielding `{nextTeam 0, direction 1}`.
`picks` and `selectedPlayerIds` are restored, the turn pointer is not. -/
theorem undo_misrestores_turn_pointer_on_serpentine_boundary :
    makePick (some roomB) (some (pdF 101 0)) = Except.ok sB1 ∧
    makePick (some sB1) (some (pdF 102 1)) = Except.ok sB2 ∧
    undoPick (some sB2) = Except.ok sB2u ∧
    sB2u.picks = sB1.picks ∧
    sB2u.selectedPlayerIds = sB1.selectedPlayerIds ∧
    sB1.nextTableToPick = 1 ∧ sB1.currentPickDirection = 1 ∧
    sB2u.nextTableToPick = 0 ∧ sB2u.currentPickDirection = 1 ∧
    (sB2u.nextTableToPick, sB2u.currentPickDirection) ≠
      (sB1.nextTableToPick, sB1.currentPickDirection) := by decide

/-- C4: the claim that an abrupt disconnection schedules room deletion
after the short (1 minute) grace delay fails on the code.  The delay is
chosen by `leavingSocketId === socket.id`, but the `disconnect` handler
passes `socket.id` itself, so the comparison is always true and the
disconnect path schedules the long (24 hour) delay, exactly as the
explicit-leave path does: for a room whose sole participant `s1`
disconnects, the scheduled delay is `ROOM_CLEANUP_DELAY_LONG`. -/
theorem disconnect_schedules_long_cleanup_delay :
    (onDisconnectRoom "s1" "ROOMB" [("ROOMB", roomB)]).2 =
      some ("ROOMB", ROOM_CLEANUP_DELAY_LONG) ∧
    (onLeaveDraft "s1" "ROOMB" [("ROOMB", roomB)]).2 =
      some ("ROOMB", ROOM_CLEANUP_DELAY_LONG) ∧
    ROOM_CLEANUP_DELAY_LONG = 24 * 60 * 60 * 1000 ∧
    ROOM_CLEANUP_DELAY_SHORT = 60 * 1000 ∧
    ROOM_CLEANUP_DELAY_LONG ≠ ROOM_CLEANUP_DELAY_SHORT := by decide

/-- C2: with serpentine order enabled, whenever the most recent pick sat
at a round boundary (direction `+1` and last team `teamCount - 1`, or
direction `-1` and last team `0`) and the draft is not complete, the
turn engine flips the direction and keeps the same team
(`nextTeam = lastTeam`); and in scenario B (2 teams, `{F:2}`,
serpentine) the accepted team order across the four picks is
`0, 1, 1, 0` with `nextTeam = -1` after the fourth. -/
theorem serpentine_boundary_repeats_team_and_flips :
    (∀ (s : RoomState) (lastPick : Pick),
      s.settings.isSerpentineOrder = true →
      0 < s.settings.numTables →
      s.picks.getLast? = some lastPick →
      (s.picks.length : Int) < totalSlots s →
      ((s.currentPickDirection = 1 ∧ lastPick.teamId = s.settings.numTables - 1) ∨
        (s.currentPickDirection = -1 ∧ lastPick.teamId = 0)) →
      calculateNextTurn s = (lastPick.teamId, -s.currentPickDirection)) ∧
    (roomB.nextTableToPick = 0 ∧
      makePick (some roomB) (some (pdF 101 0)) = Except.ok sB1 ∧
      sB1.nextTableToPick = 1 ∧
      makePick (some sB1) (some (pdF 102 1)) = Except.ok sB2 ∧
      sB2.nextTableToPick = 1 ∧
      makePick (some sB2) (some (pdF 103 1)) = Except.ok sB3 ∧
      sB3.nextTableToPick = 0 ∧
      makePick (some sB3) (some (pdF 104 0)) = Except.ok sB4 ∧
      sB4.nextTableToPick = -1) := by
  constructor
  · intro s lastPick hserp hn hlast hlen hb
    have hn' : ¬ s.settings.numTables ≤ 0 := by omega
    have hslots :
        ¬ (0 < s.settings.numTables * totalSlotsPerTable s.settings.playersPerPos ∧
          s.settings.numTables * totalSlotsPerTable s.settings.playersPerPos ≤
            (s.picks.length : Int)) := by
      simp only [totalSlots] at hlen
      rintro ⟨-, hc⟩
      omega
    simp only [calculateNextTurn, hlast, if_neg hn', if_neg hslots, hserp]
    rw [if_pos ⟨trivial, hb⟩]
    have hneg : s.currentPickDirection * (-1) = -s.currentPickDirection := by ring
    rw [hneg]
  · decide

/-- C2 witness: the general part applied to the concrete mid-pick state
of scenario B's second pick. -/
theorem serpentine_boundary_repeats_team_and_flips_witness :
    sBmid.settings.isSerpentineOrder = true ∧ 0 < sBmid.settings.numTables ∧
    sBmid.picks.getLast? = some pickB2 ∧
    (sBmid.picks.length : Int) < totalSlots sBmid ∧
    (sBmid.currentPickDirection = 1 ∧
      pickB2.teamId = sBmid.settings.numTables - 1) ∧
    calculateNextTurn sBmid = (pickB2.teamId, -sBmid.currentPickDirection) :=
  ⟨by decide, by decide, by decide, by decide, ⟨by decide, by decide⟩,
    serpentine_boundary_repeats_team_and_flips.1 sBmid pickB2 (by decide)
      (by decide) (by decide) (by decide) (Or.inl ⟨by decide, by decide⟩)⟩

/-- C5: every rejected `make_pick`, `undo_pick` or `update_table_name`
request leaves the room map completely unchanged and produces exactly
one emission, addressed to the requester alone (`pick_error`
respectively `error`), never a room broadcast. -/
theorem rejection_leaves_rooms_unchanged_and_reaches_requester_only :
    (∀ (rooms : List (String × RoomState)) (roomCode : String)
        (pickData? : Option RawPickData) (e : PickError),
      makePick (lookupRoom rooms roomCode) pickData? = .error e →
      handleMakePick rooms roomCode pickData? =
        (rooms, [⟨EmitTarget.requester, "pick_error"⟩])) ∧
    (∀ (rooms : List (String × RoomState)) (roomCode : String) (e : UndoError),
      undoPick (lookupRoom rooms roomCode) = .error e →
      handleUndoPick rooms roomCode = (rooms, [⟨EmitTarget.requester, "error"⟩])) ∧
    (∀ (rooms : List (String × RoomState)) (roomCode : String) (teamId : Int)
        (newName : Option String) (e : RenameError),
      updateTableName (lookupRoom rooms roomCode) teamId newName = .error e →
      handleUpdateTableName rooms roomCode teamId newName =
        (rooms, [⟨EmitTarget.requester, "error"⟩])) := by
  refine ⟨?_, ?_, ?_⟩
  · intro rooms roomCode pickData? e h
    simp [handleMakePick, h]
  · intro rooms roomCode e h
    simp [handleUndoPick, h]
  · intro rooms roomCode teamId newName e h
    simp [handleUpdateTableName, h]

/-- C5 witness: the three parts applied to concrete rejected requests
(unknown room for pick and undo, out-of-range team for rename). -/
theorem rejection_leaves_rooms_unchanged_witness :
    handleMakePick [] "NOROOM" none = ([], [⟨EmitTarget.requester, "pick_error"⟩]) ∧
    handleUndoPick [] "NOROOM" = ([], [⟨EmitTarget.requester, "error"⟩]) ∧
    handleUpdateTableName [("ROOMB", roomB)] "ROOMB" 5 (some "X") =
      ([("ROOMB", roomB)], [⟨EmitTarget.requester, "error"⟩]) :=
  ⟨rejection_leaves_rooms_unchanged_and_reaches_requester_only.1 [] "NOROOM" none
      .roomNotFound (by decide),
    rejection_leaves_rooms_unchanged_and_reaches_requester_only.2.1 [] "NOROOM"
      .roomNotFound (by decide),
    rejection_leaves_rooms_unchanged_and_reaches_requester_only.2.2
      [("ROOMB", roomB)] "ROOMB" 5 (some "X") .invalidData (by decide)⟩

/-- C10: an accepted pick appends exactly the seven-field record
`{playerId, playerName, salary, position, teamId, team_url, city}`
built from the payload, with `city` defaulting to the empty string when
absent, and every other property of the payload is discarded (replacing
the extra properties does not change the result at all). -/
theorem accepted_pick_stores_exactly_seven_fields :
    ∀ (room : RoomState) (pd : RawPickData) (s' : RoomState),
      makePick (some room) (some pd) = .ok s' →
      (∃ (pid tid : Int) (pname : String) (sal : Int) (pos url : String),
        pd.playerId = some pid ∧ pd.teamId = some tid ∧
        pd.playerName = some pname ∧ pd.salary = some sal ∧
        pd.position = some pos ∧ pd.team_url = some url ∧
        s'.picks = room.picks ++
          [{ playerId := pid, playerName := pname, salary := sal,
              position := pos, teamId := tid, team_url := url,
              city := pd.city.getD "" }]) ∧
      (∀ (extra' : List (String × String)),
        makePick (some room) (some { pd with extra := extra' }) = .ok s') := by
  intro room pd s' h
  refine ⟨?_, fun extra' => (makePick_extra_irrelevant room pd extra').trans h⟩
  have h' := h
  simp only [makePick] at h'
  split at h'
  · split at h'
    case isTrue => exact absurd h' (by simp)
    case isFalse hturn =>
      split at h'
      case isTrue => exact absurd h' (by simp)
      case isFalse hmem =>
        split at h'
        next => exact absurd h' (by simp)
        next req hreq =>
          split at h'
          case isTrue => exact absurd h' (by simp)
          case isFalse hcap =>
            injection h' with h''
            subst h''
            refine ⟨_, _, _, _, _, _, ?_, ?_, ?_, ?_, ?_, ?_, rfl⟩ <;> assumption
  · exact absurd h' (by simp)

/-- C10 witness: applied to scenario B's first pick, whose payload has
no `city` and no extra properties. -/
theorem accepted_pick_stores_exactly_seven_fields_witness :
    (∃ (pid tid : Int) (pname : String) (sal : Int) (pos url : String),
      (pdF 101 0).playerId = some pid ∧ (pdF 101 0).teamId = some tid ∧
      (pdF 101 0).playerName = some pname ∧ (pdF 101 0).salary = some sal ∧
      (pdF 101 0).position = some pos ∧ (pdF 101 0).team_url = some url ∧
      sB1.picks = roomB.picks ++
        [{ playerId := pid, playerName := pname, salary := sal,
            position := pos, teamId := tid, team_url := url,
            city := (pdF 101 0).city.getD "" }]) ∧
    makePick (some roomB) (some { pdF 101 0 with extra := [("hack", "x")] }) =
      Except.ok sB1 :=
  ⟨(accepted_pick_stores_exactly_seven_fields roomB (pdF 101 0) sB1 (by decide)).1,
    (accepted_pick_stores_exactly_seven_fields roomB (pdF 101 0) sB1
      (by decide)).2 [("hack", "x")]⟩

/-- Updating a stored room keeps it stored: lookup after `setRoom` on
the same code returns the new state. -/
theorem lookupRoom_setRoom_self {rooms : List (String × RoomState)}
    {code : String} {r st : RoomState} (h : lookupRoom rooms code = some r) :
    lookupRoom (setRoom rooms code st) code = some st := by
  induction rooms with
  | nil => simp [lookupRoom] at h
  | cons kv rest ih =>
    by_cases hk : kv.1 = code
    · simp [lookupRoom, setRoom, hk]
    · simp only [lookupRoom, setRoom, if_neg hk] at h ⊢
      exact ih h

/-- C8: the scheduled cleanup callback re-verifies at fire time: it
never deletes a room that still exists and has participants, and in
particular a room that a participant (re)joined during the grace window
survives the timer. -/
theorem cleanup_timer_preserves_nonempty_rooms :
    (∀ (rooms : List (String × RoomState)) (roomCode : String) (room : RoomState),
      lookupRoom rooms roomCode = some room →
      room.participants ≠ ∅ →
      fireScheduledRoomRemoval rooms roomCode = rooms) ∧
    (∀ (rooms : List (String × RoomState)) (roomCode socketId : String)
        (room : RoomState),
      lookupRoom rooms (jsToUpper (jsTrim roomCode)) = some room →
      jsToUpper (jsTrim roomCode) ≠ "" →
      fireScheduledRoomRemoval (handleJoinDraft rooms roomCode socketId).1
          (jsToUpper (jsTrim roomCode)) =
        (handleJoinDraft rooms roomCode socketId).1) := by
  have part1 : ∀ (rooms : List (String × RoomState)) (roomCode : String)
      (room : RoomState),
      lookupRoom rooms roomCode = some room →
      room.participants ≠ ∅ →
      fireScheduledRoomRemoval rooms roomCode = rooms := by
    intro rooms roomCode room hlook hne
    simp [fireScheduledRoomRemoval, hlook, hne]
  refine ⟨part1, ?_⟩
  intro rooms roomCode socketId room hlook hne
  have hjoin : (handleJoinDraft rooms roomCode socketId).1 =
      setRoom rooms (jsToUpper (jsTrim roomCode))
        { room with participants := insert socketId room.participants } := by
    unfold handleJoinDraft
    rw [if_neg hne, hlook]
  have hlook' : lookupRoom
      (setRoom rooms (jsToUpper (jsTrim roomCode))
        { room with participants := insert socketId room.participants })
      (jsToUpper (jsTrim roomCode)) =
      some { room with participants := insert socketId room.participants } :=
    lookupRoom_setRoom_self hlook
  rw [hjoin]
  exact part1 _ _ _ hlook' (Finset.insert_ne_empty _ _)

/-- C8 witness: both parts applied to the concrete one-room map whose
room `ROOMB` has participant `s1`. -/
theorem cleanup_timer_preserves_nonempty_rooms_witness :
    fireScheduledRoomRemoval [("ROOMB", roomB)] "ROOMB" = [("ROOMB", roomB)] ∧
    fireScheduledRoomRemoval (handleJoinDraft [("ROOMB", roomB)] "ROOMB" "s2").1
        (jsToUpper (jsTrim "ROOMB")) =
      (handleJoinDraft [("ROOMB", roomB)] "ROOMB" "s2").1 :=
  ⟨cleanup_timer_preserves_nonempty_rooms.1 [("ROOMB", roomB)] "ROOMB" roomB
      (by decide) (by decide),
    cleanup_timer_preserves_nonempty_rooms.2 [("ROOMB", roomB)] "ROOMB" "s2" roomB
      (by decide) (by decide)⟩

/-- Every code returned by the sampling loop has length 5, draws its
characters from the unambiguous alphabet, and differs from every
currently-live code. -/
theorem generateRoomCode_spec (liveCodes : List String) :
    ∀ (seeds : List (List Nat)) (code : String),
      generateRoomCode liveCodes seeds = some code →
      code.length = 5 ∧ (∀ c ∈ code.toList, c ∈ roomCodeCharacters.toList) ∧
      code ∉ liveCodes := by
  intro seeds
  induction seeds with
  | nil => intro code h; simp [generateRoomCode] at h
  | cons seed rest ih =>
    intro code h
    rw [generateRoomCode] at h
    split at h
    · exact ih code h
    · injection h with h'
      subst h'
      refine ⟨by rfl, ?_, ?_⟩
      · intro c hc
        simp only [sampleRoomCode, String.toList, String.mk, List.mem_map,
          List.mem_range] at hc
        obtain ⟨i, -, rfl⟩ := hc
        have h34 : 0 < roomCodeCharacters.length := by decide
        have hlt : (seed.getD i 0) % roomCodeCharacters.length <
            roomCodeCharacters.data.length := Nat.mod_lt _ h34
        rw [List.getD_eq_getElem?_getD, List.getElem?_eq_getElem hlt,
          Option.getD_some]
        exact List.getElem_mem hlt
      · rename_i hcon
        simpa using hcon

/-- C9: every room code handed out by `generateRoomCode` is a 5-character
string over the fixed unambiguous alphabet that no live room carries,
and consequently along any sequence of room creations the codes of the
live rooms stay pairwise distinct. -/
theorem room_codes_wellformed_and_never_shared :
    (∀ (liveCodes : List String) (seeds : List (List Nat)) (code : String),
      generateRoomCode liveCodes seeds = some code →
      code.length = 5 ∧ (∀ c ∈ code.toList, c ∈ roomCodeCharacters.toList) ∧
      code ∉ liveCodes) ∧
    (∀ rooms, CreationsReachable rooms → (rooms.map (fun kv => kv.1)).Nodup) := by
  refine ⟨fun liveCodes => generateRoomCode_spec liveCodes, ?_⟩
  intro rooms h
  induction h with
  | nil => simp
  | step settings? seeds creator hr hs ih =>
    rw [handleStartDraft] at hs
    split at hs
    · exact absurd hs (by simp)
    · split at hs
      · exact absurd hs (by simp)
      · rename_i settings hv code' hg
        injection hs with hs'
        have hrooms := congrArg Prod.fst hs'
        simp only at hrooms
        subst hrooms
        rw [List.map_cons, List.nodup_cons]
        exact ⟨(generateRoomCode_spec _ seeds code' hg).2.2, ih⟩

/-- C9 witness: the sampling part applied to a concrete draw on an empty
registry, and the distinctness part applied to the empty registry. -/
theorem room_codes_wellformed_and_never_shared_witness :
    ("ABCDE".length = 5 ∧ (∀ c ∈ "ABCDE".toList, c ∈ roomCodeCharacters.toList) ∧
      "ABCDE" ∉ ([] : List String)) ∧
    (([] : List (String × RoomState)).map (fun kv => kv.1)).Nodup :=
  ⟨room_codes_wellformed_and_never_shared.1 [] [[0, 1, 2, 3, 4]] "ABCDE" (by decide),
    room_codes_wellformed_and_never_shared.2 [] CreationsReachable.nil⟩

/-- Every reachable room keeps its selected-id set equal to the set of
stored player ids, which are pairwise distinct. -/
theorem reachable_selectedInv {s : RoomState} (h : ReachableRoom s) :
    SelectedInv s := by
  induction h with
  | start settings? settings roomCode creator hv =>
    exact ⟨by simp [createRoom], by simp [createRoom]⟩
  | @pick t t' pd hr hp ih =>
    obtain ⟨pick, hmem, -, hpicks, hsel, -, -, -⟩ := makePick_ok_shape hp
    obtain ⟨ihset, ihnodup⟩ := ih
    have hpid : pick.playerId ∉ t.picks.map Pick.playerId := by
      intro hmem'
      exact hmem (ihset ▸ List.mem_toFinset.mpr hmem')
    constructor
    · rw [hsel, hpicks, ihset]
      ext a
      simp [or_comm]
    · rw [hpicks, List.map_append]
      simp only [List.map_cons, List.map_nil]
      rw [List.nodup_append]
      refine ⟨ihnodup, by simp, ?_⟩
      intro a ha hb
      rw [List.mem_singleton] at hb
      subst hb
      exact hpid ha
  | @undo t t' hr hu ih =>
    obtain ⟨lastPick, hlast, hpicks, hsel, -, -, -⟩ := undoPick_ok_shape hu
    obtain ⟨ihset, ihnodup⟩ := ih
    have hne : t.picks ≠ [] := by
      intro h0
      rw [h0] at hlast
      simp at hlast
    have hg : t.picks.getLast hne = lastPick := by
      have h2 := List.getLast?_eq_getLast t.picks hne
      rw [hlast] at h2
      injection h2 with h3
      exact h3.symm
    have hdecomp : t.picks.dropLast ++ [lastPick] = t.picks := by
      rw [← hg]
      exact List.dropLast_concat_getLast hne
    have hids : t.picks.map Pick.playerId =
        t.picks.dropLast.map Pick.playerId ++ [lastPick.playerId] := by
      conv_lhs => rw [← hdecomp]
      simp
    have hsplit : (t.picks.dropLast.map Pick.playerId).Nodup ∧
        lastPick.playerId ∉ t.picks.dropLast.map Pick.playerId := by
      have hida := ihnodup
      rw [hids, List.nodup_append] at hida
      obtain ⟨h1, -, h3⟩ := hida
      exact ⟨h1, fun hm => h3 hm (by simp)⟩
    constructor
    · rw [hsel, ihset, hids, hpicks]
      ext a
      simp only [Finset.mem_erase, List.mem_toFinset, List.mem_append,
        List.mem_singleton]
      constructor
      · rintro ⟨hna, ha | ha⟩
        · exact ha
        · exact absurd ha hna
      · intro ha
        exact ⟨fun heq => hsplit.2 (heq ▸ ha), Or.inl ha⟩
    · rw [hpicks]
      exact hsplit.1
  | @rename t t' teamId newName hr hn ih =>
    obtain ⟨hpicks, hsel, -, -, -, -, -⟩ := updateTableName_ok_shape hn
    obtain ⟨ihset, ihnodup⟩ := ih
    exact ⟨by rw [hsel, hpicks]; exact ihset, by rw [hpicks]; exact ihnodup⟩

/-- C7: after every successful operation — room creation, accepted
pick, accepted undo, rename — the size of `selectedPlayerIds` equals the
length of `picks`, and no player identifier appears twice in `picks`. -/
theorem selected_ids_size_matches_picks :
    ∀ (s : RoomState), ReachableRoom s →
      s.selectedPlayerIds.card = s.picks.length ∧
      (s.picks.map Pick.playerId).Nodup := by
  intro s h
  obtain ⟨hset, hnodup⟩ := reachable_selectedInv h
  refine ⟨?_, hnodup⟩
  rw [hset, List.toFinset_card_of_nodup hnodup, List.length_map]

/-- C7 witness: applied to the scenario-B room after two accepted
picks, reached by creation and two picks. -/
theorem selected_ids_size_matches_picks_witness :
    sB2.selectedPlayerIds.card = sB2.picks.length ∧
    (sB2.picks.map Pick.playerId).Nodup := by
  have h0 : ReachableRoom roomB :=
    ReachableRoom.start (some rawSettingsB) settingsB "ROOMB" "s1" (by decide)
  have h1 : ReachableRoom sB1 := ReachableRoom.pick (pdF 101 0) h0 (by decide)
  have h2 : ReachableRoom sB2 := ReachableRoom.pick (pdF 102 1) h1 (by decide)
  exact selected_ids_size_matches_picks sB2 h2

/-- Settings that pass the `start_draft` validation have at least one
team, nonnegative position counts, and at least one slot per team. -/
theorem validateStartSettings_valid {settings? : Option RawSettings}
    {st : DraftSettings} (h : validateStartSettings settings? = some st) :
    ValidRoomSettings st := by
  simp only [validateStartSettings] at h
  split at h
  · exact absurd h (by simp)
  · split at h
    · exact absurd h (by simp)
    · split at h
      case isTrue => exact absurd h (by simp)
      case isFalse h1 =>
        split at h
        · exact absurd h (by simp)
        · split at h
          · exact absurd h (by simp)
          · split at h
            case isTrue => exact absurd h (by simp)
            case isFalse h2 =>
              split at h
              · exact absurd h (by simp)
              · split at h
                · split at h
                  case isTrue => exact absurd h (by simp)
                  case isFalse h3 =>
                    split at h
                    case isTrue => exact absurd h (by simp)
                    case isFalse h4 =>
                      injection h with h'
                      subst h'
                      simp only [ValidRoomSettings, totalSlotsPerTable]
                      omega
                · exact absurd h (by simp)

/-- Membership in a shorter take carries over to a longer take. -/
theorem mem_take_of_le {α : Type} {l : List α} {a : α} {m n : ℕ} (hmn : m ≤ n)
    (ha : a ∈ l.take m) : a ∈ l.take n := by
  have h1 : l.take m = (l.take n).take m := by
    rw [List.take_take, Nat.min_eq_left hmn]
  rw [h1] at ha
  exact List.take_subset _ _ ha

/-- The turn-engine pointer analysis: on a room with at least one team,
direction in `{+1, -1}`, and an in-range last pick whenever the code's
completion condition `0 < totalSlots ∧ totalSlots ≤ picks.length` does
not hold, `calculateNextTurn` yields `-1` exactly under that completion
condition and an in-range team otherwise, with a direction again in
`{+1, -1}`.  No positivity of `totalSlots` is assumed: extra
`playersPerPos` entries can make it zero or negative, in which case the
completion branch never fires. -/
theorem calculateNextTurn_inv (s : RoomState)
    (hn : 1 ≤ s.settings.numTables)
    (hdir : s.currentPickDirection = 1 ∨ s.currentPickDirection = -1)
    (hlast : ∀ p, s.picks.getLast? = some p →
      ¬(0 < totalSlots s ∧ totalSlots s ≤ (s.picks.length : Int)) →
      0 ≤ p.teamId ∧ p.teamId < s.settings.numTables) :
    (((calculateNextTurn s).1 = -1 ∧ 0 < totalSlots s ∧
        totalSlots s ≤ (s.picks.length : Int)) ∨
      (0 ≤ (calculateNextTurn s).1 ∧
        (calculateNextTurn s).1 < s.settings.numTables ∧
        ¬(0 < totalSlots s ∧ totalSlots s ≤ (s.picks.length : Int)))) ∧
    ((calculateNextTurn s).2 = 1 ∨ (calculateNextTurn s).2 = -1) := by
  have hguard : ¬ s.settings.numTables ≤ 0 := by omega
  cases hg : s.picks.getLast? with
  | none =>
    have hnil : s.picks = [] := List.getLast?_eq_none_iff.mp hg
    have hc : calculateNextTurn s = (0, 1) := by
      simp only [calculateNextTurn, hg, if_neg hguard]
    rw [hc]
    refine ⟨Or.inr ⟨by norm_num, by norm_num; omega, ?_⟩, by norm_num⟩
    rw [hnil]
    rintro ⟨hpos, hle⟩
    simp only [List.length_nil] at hle
    omega
  | some lastPick =>
    by_cases hC : 0 < totalSlots s ∧ totalSlots s ≤ (s.picks.length : Int)
    · have hc : calculateNextTurn s = (-1, s.currentPickDirection) := by
        simp only [calculateNextTurn, hg, if_neg hguard]
        rw [if_pos (by simpa [totalSlots] using hC)]
      rw [hc]
      exact ⟨Or.inl ⟨rfl, hC⟩, hdir⟩
    · obtain ⟨htid0, htid1⟩ := hlast lastPick hg hC
      by_cases hserp : s.settings.isSerpentineOrder = true ∧
          ((s.currentPickDirection = 1 ∧
              lastPick.teamId = s.settings.numTables - 1) ∨
            (s.currentPickDirection = -1 ∧ lastPick.teamId = 0))
      · have hc : calculateNextTurn s =
            (lastPick.teamId, s.currentPickDirection * (-1)) := by
          simp only [calculateNextTurn, hg, if_neg hguard]
          rw [if_neg (by simpa [totalSlots] using hC), if_pos hserp]
        rw [hc]
        refine ⟨Or.inr ⟨htid0, htid1, hC⟩, ?_⟩
        rcases hdir with hd | hd <;> simp [hd]
      · have hc : calculateNextTurn s =
            ((lastPick.teamId + s.currentPickDirection +
                s.settings.numTables).tmod s.settings.numTables,
              s.currentPickDirection) := by
          simp only [calculateNextTurn, hg, if_neg hguard]
          rw [if_neg (by simpa [totalSlots] using hC), if_neg hserp]
        rw [hc]
        have ha : 0 ≤ lastPick.teamId + s.currentPickDirection +
            s.settings.numTables := by
          rcases hdir with hd | hd <;> omega
        have hmod := Int.tmod_eq_emod ha
          (by omega : (0:Int) ≤ s.settings.numTables)
        refine ⟨Or.inr ⟨?_, ?_, hC⟩, hdir⟩
        · rw [hmod]
          exact Int.emod_nonneg _ (by omega)
        · rw [hmod]
          exact Int.emod_lt_of_pos _ (by omega)

/-- Every reachable room satisfies the full turn-pointer invariant. -/
theorem reachable_fullInv {s : RoomState} (h : ReachableRoom s) : FullInv s := by
  induction h with
  | start settings? settings roomCode creator hv =>
    have hvs := validateStartSettings_valid hv
    obtain ⟨hn, hF, hD, hG, hsum⟩ := hvs
    refine ⟨⟨hn, hF, hD, hG, hsum⟩, Or.inl rfl, Or.inr ⟨?_, ?_, ?_⟩, ?_, ?_⟩
    · show (0:Int) ≤ 0
      omega
    · show (0:Int) < settings.numTables
      omega
    · rintro ⟨hpos, hle⟩
      rw [show (createRoom settings roomCode creator).picks = [] from rfl] at hle
      simp only [List.length_nil] at hle
      omega
    · intro p hp
      simp [createRoom] at hp
    · intro htle p hp
      simp [createRoom] at hp
  | @pick t t' pd hr hp ih =>
    obtain ⟨pick, hmem, htid, hpicks, hsel, hsetEq, hnt, hdir'⟩ := makePick_ok_shape hp
    obtain ⟨hvalid, hdirInv, hturnInv, hprefix, hprefix0⟩ := ih
    set w : RoomState :=
      { t with
        picks := t.picks ++ [pick],
        selectedPlayerIds := insert pick.playerId t.selectedPlayerIds } with hwdef
    have hw3 : w.picks = t.picks ++ [pick] := rfl
    have hw4 : totalSlots w = totalSlots t := rfl
    have hwlen : (w.picks.length : Int) = (t.picks.length : Int) + 1 := by
      rw [hw3]
      simp
    have hlastw : ∀ p, w.picks.getLast? = some p →
        ¬(0 < totalSlots w ∧ totalSlots w ≤ (w.picks.length : Int)) →
        0 ≤ p.teamId ∧ p.teamId < w.settings.numTables := by
      intro p hpg hplen
      rw [hw3, List.getLast?_concat] at hpg
      injection hpg with hpg'
      subst hpg'
      rcases hturnInv with ⟨-, hpos, hge⟩ | ⟨h0, h1, -⟩
      · exfalso
        apply hplen
        rw [hw4, hwlen]
        exact ⟨hpos, by omega⟩
      · rw [htid]
        exact ⟨h0, h1⟩
    have hcalc := calculateNextTurn_inv w hvalid.1 hdirInv hlastw
    have htots' : totalSlots t' = totalSlots t := by
      rw [totalSlots, totalSlots, hsetEq]
    have hlen' : (t'.picks.length : Int) = (t.picks.length : Int) + 1 := by
      rw [hpicks]
      simp
    refine ⟨?_, ?_, ?_, ?_, ?_⟩
    · rw [hsetEq]
      exact hvalid
    · rw [hdir']
      exact hcalc.2
    · rcases hcalc.1 with ⟨hm1, hpos, hge⟩ | ⟨h0, h1, hnC⟩
      · left
        refine ⟨by rw [hnt]; exact hm1, ?_, ?_⟩
        · rw [htots']
          rw [hw4] at hpos
          exact hpos
        · rw [htots', hlen']
          rw [hw4, hwlen] at hge
          omega
      · right
        refine ⟨by rw [hnt]; exact h0, by rw [hnt, hsetEq]; exact h1, ?_⟩
        rw [htots', hlen']
        rw [hw4, hwlen] at hnC
        exact hnC
    · intro p hpmem
      rw [hpicks, htots'] at hpmem
      rw [hsetEq]
      rcases hturnInv with ⟨-, hpos, hge⟩ | ⟨h0, h1, hnC⟩
      · have hle : (totalSlots t).toNat ≤ t.picks.length := by omega
        rw [List.take_append_of_le_length hle] at hpmem
        exact hprefix p hpmem
      · by_cases hpos : 0 < totalSlots t
        · rw [List.take_append_eq_append_take] at hpmem
          rcases List.mem_append.mp hpmem with hmem1 | hmem2
          · exact hprefix p hmem1
          · have hps : p ∈ [pick] := List.take_subset _ _ hmem2
            rw [List.mem_singleton] at hps
            subst hps
            rw [htid]
            exact ⟨h0, h1⟩
        · have h0' : (totalSlots t).toNat = 0 := by omega
          rw [h0'] at hpmem
          simp at hpmem
    · intro htle p hpmem
      rw [htots'] at htle
      rw [hpicks] at hpmem
      rw [hsetEq]
      rcases List.mem_append.mp hpmem with hmem1 | hmem2
      · exact hprefix0 htle p hmem1
      · rw [List.mem_singleton] at hmem2
        subst hmem2
        rw [htid]
        rcases hturnInv with ⟨-, hpos, -⟩ | ⟨h0, h1, -⟩
        · exact absurd hpos (by omega)
        · exact ⟨h0, h1⟩
  | @undo t t' hr hu ih =>
    obtain ⟨lastPick, hlast, hpicks, hsel, hsetEq, hnt, hdir'⟩ := undoPick_ok_shape hu
    obtain ⟨hvalid, hdirInv, hturnInv, hprefix, hprefix0⟩ := ih
    set w : RoomState :=
      { t with
        picks := t.picks.dropLast,
        selectedPlayerIds := t.selectedPlayerIds.erase lastPick.playerId } with hwdef
    have hw3 : w.picks = t.picks.dropLast := rfl
    have hw4 : totalSlots w = totalSlots t := rfl
    have hwlen2 : w.picks.length = t.picks.length - 1 := by
      rw [hw3]
      exact List.length_dropLast _
    have hlastw : ∀ p, w.picks.getLast? = some p →
        ¬(0 < totalSlots w ∧ totalSlots w ≤ (w.picks.length : Int)) →
        0 ≤ p.teamId ∧ p.teamId < w.settings.numTables := by
      intro p hpg hplen
      rw [hw3] at hpg
      have hpmem : p ∈ t.picks.dropLast := List.mem_of_getLast?_eq_some hpg
      rw [hw4, hwlen2] at hplen
      by_cases hpos : 0 < totalSlots t
      · have hlt : ((t.picks.length - 1 : Nat) : Int) < totalSlots t := by
          by_contra hcon
          exact hplen ⟨hpos, by omega⟩
        have hmemtake : p ∈ t.picks.take (totalSlots t).toNat := by
          rw [List.dropLast_eq_take] at hpmem
          exact mem_take_of_le (by omega) hpmem
        exact hprefix p hmemtake
      · have hple : p ∈ t.picks := by
          rw [List.dropLast_eq_take] at hpmem
          exact List.take_subset _ _ hpmem
        exact hprefix0 (by omega) p hple
    have hcalc := calculateNextTurn_inv w hvalid.1 hdirInv hlastw
    have htots' : totalSlots t' = totalSlots t := by
      rw [totalSlots, totalSlots, hsetEq]
    have hlenN : t'.picks.length = t.picks.length - 1 := by
      rw [hpicks]
      exact List.length_dropLast _
    refine ⟨?_, ?_, ?_, ?_, ?_⟩
    · rw [hsetEq]
      exact hvalid
    · rw [hdir']
      exact hcalc.2
    · rcases hcalc.1 with ⟨hm1, hpos, hge⟩ | ⟨h0, h1, hnC⟩
      · left
        refine ⟨by rw [hnt]; exact hm1, ?_, ?_⟩
        · rw [htots']
          rw [hw4] at hpos
          exact hpos
        · rw [htots', hlenN]
          rw [hw4, hwlen2] at hge
          omega
      · right
        refine ⟨by rw [hnt]; exact h0, by rw [hnt, hsetEq]; exact h1, ?_⟩
        rw [htots', hlenN]
        rw [hw4, hwlen2] at hnC
        exact hnC
    · intro p hpmem
      rw [hpicks, htots'] at hpmem
      rw [hsetEq]
      rw [List.dropLast_eq_take, List.take_take] at hpmem
      exact hprefix p (mem_take_of_le (Nat.min_le_left _ _) hpmem)
    · intro htle p hpmem
      rw [htots'] at htle
      rw [hpicks] at hpmem
      rw [hsetEq]
      have hple : p ∈ t.picks := by
        rw [List.dropLast_eq_take] at hpmem
        exact List.take_subset _ _ hpmem
      exact hprefix0 htle p hple
  | @rename t t' teamId newName hr hn ih =>
    obtain ⟨hpicks, hsel, hnt, hdir', hnum, hppp, hserp⟩ := updateTableName_ok_shape hn
    obtain ⟨hvalid, hdirInv, hturnInv, hprefix, hprefix0⟩ := ih
    have htots' : totalSlots t' = totalSlots t := by
      rw [totalSlots, totalSlots, hnum, hppp]
    refine ⟨?_, ?_, ?_, ?_, ?_⟩
    · obtain ⟨h1, h2, h3, h4, h5⟩ := hvalid
      exact ⟨by rw [hnum]; exact h1, by rw [hppp]; exact h2, by rw [hppp]; exact h3,
        by rw [hppp]; exact h4, by rw [hppp]; exact h5⟩
    · rw [hdir']
      exact hdirInv
    · rcases hturnInv with ⟨h1, hpos, h2⟩ | ⟨h0, h1, h2⟩
      · exact Or.inl ⟨by rw [hnt]; exact h1, by rw [htots']; exact hpos,
          by rw [htots', hpicks]; exact h2⟩
      · exact Or.inr ⟨by rw [hnt]; exact h0, by rw [hnt, hnum]; exact h1,
          by rw [htots', hpicks]; exact h2⟩
    · intro p hpmem
      rw [hpicks, htots'] at hpmem
      rw [hnum]
      exact hprefix p hpmem
    · intro htle p hpmem
      rw [htots'] at htle
      rw [hpicks] at hpmem
      rw [hnum]
      exact hprefix0 htle p hpmem

/-- C3 counterexample: the claimed equality `nextTeam = -1 iff
picks.length = teamCount × Σ(positionCounts)` fails on reachable rooms,
in both directions.
Room A (1 team, `{F:1}`): the draft completes after one pick
(`nextTableToPick = -1`); a further pick submitted with `teamId = -1`
then passes the turn check (`-1 === -1`) and every later check, so the
room reaches `picks.length = 2` while the threshold is `1` and
`nextTableToPick` is still `-1`.
Room X (1 team, `{F:1}` plus an extra entry `X: -5` that only the slot
sum sees): after one accepted pick `picks.length = 1` equals
`teamCount × (F + D + G) = 1`, yet `nextTableToPick = 0`, not `-1` —
the code's completion test reads `totalSlots = -4` and its positivity
guard never fires, which also forces the positivity condition in the
amended claim. -/
theorem completion_pointer_equality_fails :
    (ReachableRoom sA2 ∧ sA2.nextTableToPick = -1 ∧
      (sA2.picks.length : Int) ≠ totalSlots sA2 ∧ totalSlots sA2 = 1 ∧
      sA2.picks.length = 2) ∧
    (ReachableRoom sX1 ∧ sX1.nextTableToPick = 0 ∧ sX1.picks.length = 1 ∧
      sX1.settings.numTables *
        (sX1.settings.playersPerPos.F + sX1.settings.playersPerPos.D +
          sX1.settings.playersPerPos.G) = 1 ∧
      totalSlots sX1 = -4) := by
  have h0 : ReachableRoom roomA :=
    ReachableRoom.start (some rawSettingsA) settingsA "ROOMA" "s1" (by decide)
  have h1 : ReachableRoom sA1 := ReachableRoom.pick (pdF 201 0) h0 (by decide)
  have h2 : ReachableRoom sA2 := ReachableRoom.pick (pdF 202 (-1)) h1 (by decide)
  have hx0 : ReachableRoom roomX :=
    ReachableRoom.start (some rawSettingsX) settingsX "ROOMX" "s1" (by decide)
  have hx1 : ReachableRoom sX1 := ReachableRoom.pick (pdF 301 0) hx0 (by decide)
  exact ⟨⟨h2, by decide, by decide, by decide, by decide⟩,
    ⟨hx1, by decide, by decide, by decide, by decide⟩⟩

/-- C3 (amended): in every reachable room, `nextTeam = -1` iff the
code's completion condition holds — `totalSlots`, i.e. `teamCount`
times the sum of every stored `playersPerPos` entry, is positive and
`picks.length` has reached it; outside that condition the pointer is a
valid team index; and an undo that leaves the room outside that
condition reverts the pointer to a valid team index. -/
theorem completion_pointer_threshold_invariant :
    ∀ (s : RoomState), ReachableRoom s →
      ((s.nextTableToPick = -1 ↔
          (0 < totalSlots s ∧ totalSlots s ≤ (s.picks.length : Int))) ∧
        (¬(0 < totalSlots s ∧ totalSlots s ≤ (s.picks.length : Int)) →
          0 ≤ s.nextTableToPick ∧ s.nextTableToPick < s.settings.numTables) ∧
        (∀ s', undoPick (some s) = .ok s' →
          ¬(0 < totalSlots s' ∧ totalSlots s' ≤ (s'.picks.length : Int)) →
          0 ≤ s'.nextTableToPick ∧ s'.nextTableToPick < s'.settings.numTables)) := by
  intro s h
  obtain ⟨-, -, hturn, -, -⟩ := reachable_fullInv h
  refine ⟨⟨?_, ?_⟩, ?_, ?_⟩
  · intro hm1
    rcases hturn with ⟨-, hpos, hge⟩ | ⟨h0, -, -⟩
    · exact ⟨hpos, hge⟩
    · omega
  · intro hC
    rcases hturn with ⟨hm1, -, -⟩ | ⟨-, -, hnC⟩
    · exact hm1
    · exact absurd hC hnC
  · intro hnC
    rcases hturn with ⟨-, hpos, hge⟩ | ⟨h0, h1, -⟩
    · exact absurd ⟨hpos, hge⟩ hnC
    · exact ⟨h0, h1⟩
  · intro s' hu hnC
    obtain ⟨-, -, hturn', -, -⟩ := reachable_fullInv (ReachableRoom.undo h hu)
    rcases hturn' with ⟨-, hpos, hge⟩ | ⟨h0, h1, -⟩
    · exact absurd ⟨hpos, hge⟩ hnC
    · exact ⟨h0, h1⟩

/-- C3 witness: the amended invariant applied to the scenario-B room
after two accepted picks, plus its undo clause at the concrete undo. -/
theorem completion_pointer_threshold_invariant_witness :
    ((sB2.nextTableToPick = -1 ↔
        (0 < totalSlots sB2 ∧ totalSlots sB2 ≤ (sB2.picks.length : Int))) ∧
      (¬(0 < totalSlots sB2 ∧ totalSlots sB2 ≤ (sB2.picks.length : Int)) →
        0 ≤ sB2.nextTableToPick ∧ sB2.nextTableToPick < sB2.settings.numTables)) ∧
    (0 ≤ sB2u.nextTableToPick ∧ sB2u.nextTableToPick < sB2u.settings.numTables) := by
  have h0 : ReachableRoom roomB :=
    ReachableRoom.start (some rawSettingsB) settingsB "ROOMB" "s1" (by decide)
  have h1 : ReachableRoom sB1 := ReachableRoom.pick (pdF 101 0) h0 (by decide)
  have h2 : ReachableRoom sB2 := ReachableRoom.pick (pdF 102 1) h1 (by decide)
  have hmain := completion_pointer_threshold_invariant sB2 h2
  exact ⟨⟨hmain.1, hmain.2.1⟩, hmain.2.2 sB2u (by decide) (by decide)⟩

/-- C6: the pick validator applies its checks in the spec's order,
short-circuiting on the first failure: the rejection reported by
`make_pick` is exactly the first failing entry of the ordered check
list (room exists; payload is an object; payload complete and typed;
turn; duplicate; position; capacity), and no rejection is reported iff
no check fails. -/
theorem pick_checks_apply_in_order :
    ∀ (room? : Option RoomState) (pickData? : Option RawPickData),
      makePickRejection room? pickData? = firstFailingPickCheck room? pickData? := by
  intro room? pickData?
  cases room? with
  | none => rfl
  | some r =>
    cases pickData? with
    | none => rfl
    | some pd =>
      cases h1 : pd.playerId with
      | none =>
        simp [makePickRejection, makePick, firstFailingPickCheck, specPickChecks,
          specCheckRoom, specCheckObject, specCheckComplete, specCheckTurn,
          specCheckDuplicate, specCheckPosition, specCheckCapacity, h1]
      | some pid =>
        cases h2 : pd.teamId with
        | none =>
          simp [makePickRejection, makePick, firstFailingPickCheck, specPickChecks,
            specCheckRoom, specCheckObject, specCheckComplete, specCheckTurn,
            specCheckDuplicate, specCheckPosition, specCheckCapacity, h1, h2]
        | some tid =>
          cases h3 : pd.playerName with
          | none =>
            simp [makePickRejection, makePick, firstFailingPickCheck, specPickChecks,
              specCheckRoom, specCheckObject, specCheckComplete, specCheckTurn,
              specCheckDuplicate, specCheckPosition, specCheckCapacity, h1, h2, h3]
          | some pname =>
            cases h4 : pd.salary with
            | none =>
              simp [makePickRejection, makePick, firstFailingPickCheck,
                specPickChecks, specCheckRoom, specCheckObject, specCheckComplete,
                specCheckTurn, specCheckDuplicate, specCheckPosition,
                specCheckCapacity, h1, h2, h3, h4]
            | some sal =>
              cases h5 : pd.position with
              | none =>
                simp [makePickRejection, makePick, firstFailingPickCheck,
                  specPickChecks, specCheckRoom, specCheckObject, specCheckComplete,
                  specCheckTurn, specCheckDuplicate, specCheckPosition,
                  specCheckCapacity, h1, h2, h3, h4, h5]
              | some pos =>
                cases h6 : pd.team_url with
                | none =>
                  simp [makePickRejection, makePick, firstFailingPickCheck,
                    specPickChecks, specCheckRoom, specCheckObject,
                    specCheckComplete, specCheckTurn, specCheckDuplicate,
                    specCheckPosition, specCheckCapacity, h1, h2, h3, h4, h5, h6]
                | some url =>
                  by_cases hturn : tid = r.nextTableToPick
                  · by_cases hdup : pid ∈ r.selectedPlayerIds
                    · simp [makePickRejection, makePick, firstFailingPickCheck,
                        specPickChecks, specCheckRoom, specCheckObject,
                        specCheckComplete, specCheckTurn, specCheckDuplicate,
                        specCheckPosition, specCheckCapacity,
                        h1, h2, h3, h4, h5, h6, hturn, hdup]
                    · cases hpos : r.settings.playersPerPos.get pos with
                      | none =>
                        simp [makePickRejection, makePick, firstFailingPickCheck,
                          specPickChecks, specCheckRoom, specCheckObject,
                          specCheckComplete, specCheckTurn, specCheckDuplicate,
                          specCheckPosition, specCheckCapacity,
                          h1, h2, h3, h4, h5, h6, hturn, hdup, hpos]
                      | some req =>
                        by_cases hcap : req ≤ ((r.picks.filter
                            (fun p => p.teamId == tid && p.position == pos)).length : Int)
                        · rw [hturn] at hcap
                          simp [makePickRejection, makePick, firstFailingPickCheck,
                            specPickChecks, specCheckRoom, specCheckObject,
                            specCheckComplete, specCheckTurn, specCheckDuplicate,
                            specCheckPosition, specCheckCapacity,
                            h1, h2, h3, h4, h5, h6, hturn, hdup, hpos, hcap]
                        · rw [hturn] at hcap
                          simp [makePickRejection, makePick, firstFailingPickCheck,
                            specPickChecks, specCheckRoom, specCheckObject,
                            specCheckComplete, specCheckTurn, specCheckDuplicate,
                            specCheckPosition, specCheckCapacity,
                            h1, h2, h3, h4, h5, h6, hturn, hdup, hpos, hcap]
                  · simp [makePickRejection, makePick, firstFailingPickCheck,
                      specPickChecks, specCheckRoom, specCheckObject,
                      specCheckComplete, specCheckTurn, specCheckDuplicate,
                      specCheckPosition, specCheckCapacity,
                      h1, h2, h3, h4, h5, h6, hturn]

/-- C6 witness: the equivalence at a concrete out-of-turn request,
whose first failing check is the turn check. -/
theorem pick_checks_apply_in_order_witness :
    makePickRejection (some roomB) (some (pdF 101 1)) =
      firstFailingPickCheck (some roomB) (some (pdF 101 1)) ∧
    firstFailingPickCheck (some roomB) (some (pdF 101 1)) =
      some PickError.notYourTurn :=
  ⟨pick_checks_apply_in_order (some roomB) (some (pdF 101 1)), by decide⟩

end JMockDraft
